import Mathlib

/-!
# SVGChart (PPlot.h): a shallow embedding of the chart core

The `float` arithmetic that the header spells out (`CalculatedData::GetValue`)
is embedded in binary32 with its rounding (`F32`).  A `float` that is only
stored, compared or handed on, and the arithmetic of a function modelled from
the design document, is embedded as an exact number: a rational where the
code must be evaluated, a real for the logarithm.  A `long` or `int` is an
integer, a `std::vector` a `List`, and a pointer that may be null an
`Option`.  A member function whose body is part of `PPlot.h` is transcribed
from it.  A member function that `PPlot.h` only declares is modelled from the
design document and its doc comment says so.
-/

namespace SVGChart

/-! ## The type `float` -/

/-- The values of the type `float`, IEEE 754 binary32: a finite value is
embedded as the rational it denotes (the two zeros, which compare equal, are
one value), next to the two infinities and not-a-number. -/
inductive F32 where
  | fin (q : ℚ)
  | posInf
  | negInf
  | nan
  deriving DecidableEq, Repr

/-- Rounding of a rational to the nearest integer, a tie going to the even
one. -/
def roundHalfEven (x : ℚ) : ℤ :=
  if x - ⌊x⌋ < 1 / 2 then ⌊x⌋
  else if 1 / 2 < x - ⌊x⌋ then ⌊x⌋ + 1
  else if ⌊x⌋ % 2 = 0 then ⌊x⌋
  else ⌊x⌋ + 1

/-- The exponent of the unit in the last place of binary32 at `x`: 24
significant bits below the binary exponent `floor(log_2 |x|)`, and the least
exponent -126 for the subnormal range. -/
def F32.quantum (x : ℚ) : ℤ :=
  max (Int.log 2 |x|) (-126) - 23

/-- The binary32 value of an exact result `x` under the default rounding,
to nearest with ties to even; a result that rounds to `2 ^ 128` or beyond
overflows to an infinity. -/
def F32.round (x : ℚ) : F32 :=
  if 2 ^ 128 ≤ (roundHalfEven (x / 2 ^ F32.quantum x) : ℚ) * 2 ^ F32.quantum x then .posInf
  else if (roundHalfEven (x / 2 ^ F32.quantum x) : ℚ) * 2 ^ F32.quantum x ≤ -2 ^ 128 then
    .negInf
  else .fin ((roundHalfEven (x / 2 ^ F32.quantum x) : ℚ) * 2 ^ F32.quantum x)

/-- The conversion of a `long` to `float`. -/
def F32.ofInt (i : ℤ) : F32 :=
  F32.round (i : ℚ)

/-- The `float` product: the exact product rounded; an infinity times zero
and anything with not-a-number is not-a-number. -/
def F32.mul : F32 → F32 → F32
  | .fin a, .fin b => F32.round (a * b)
  | .nan, _ => .nan
  | _, .nan => .nan
  | .posInf, .posInf => .posInf
  | .posInf, .negInf => .negInf
  | .negInf, .posInf => .negInf
  | .negInf, .negInf => .posInf
  | .posInf, .fin b => if b = 0 then .nan else if 0 < b then .posInf else .negInf
  | .negInf, .fin b => if b = 0 then .nan else if 0 < b then .negInf else .posInf
  | .fin a, .posInf => if a = 0 then .nan else if 0 < a then .posInf else .negInf
  | .fin a, .negInf => if a = 0 then .nan else if 0 < a then .negInf else .posInf

/-- The `float` sum: the exact sum rounded; the sum of the two opposite
infinities and anything with not-a-number is not-a-number. -/
def F32.add : F32 → F32 → F32
  | .fin a, .fin b => F32.round (a + b)
  | .nan, _ => .nan
  | _, .nan => .nan
  | .posInf, .negInf => .nan
  | .negInf, .posInf => .nan
  | .posInf, _ => .posInf
  | .negInf, _ => .negInf
  | .fin _, .posInf => .posInf
  | .fin _, .negInf => .negInf

/-- The rational a `float` denotes; a value that is not finite denotes none
and is read as 0. -/
def F32.toRat : F32 → ℚ
  | .fin q => q
  | _ => 0

/-- The rational `q` is a value of binary32: rounding leaves it as it is. -/
def IsF32 (q : ℚ) : Prop :=
  F32.round q = F32.fin q

/-! ## Sample series -/

/-- The `typedef vector<float> RealPlotData`. -/
abbrev RealPlotData := List ℚ

/-- An object that is handed out by pointer: its address and its contents.
Two pointers to the same object carry the same address. -/
structure Ref (α : Type) where
  addr : ℕ
  val : α
  deriving DecidableEq, Repr

/-- The class `CalculatedData`, the only implementation of
`CalculatedDataBase` in the header: a series given by a closed-form rule.
The members `mMin` and `mDelta` are `float`, `mSize` is `long`. -/
structure CalculatedData where
  mMin : F32
  mDelta : F32
  mSize : ℤ
  deriving DecidableEq, Repr

/-- The body `{ return mMin + inIndex * mDelta; }`, in `float` arithmetic:
the index is converted to `float`, the product is rounded, the sum is
rounded. -/
def CalculatedData.GetValue (d : CalculatedData) (inIndex : ℤ) : F32 :=
  F32.add d.mMin (F32.mul (F32.ofInt inIndex) d.mDelta)

/-- The body `{ return mSize; }`. -/
def CalculatedData.GetSize (d : CalculatedData) : ℤ :=
  d.mSize

/-- The concrete subclasses of `PlotDataBase` declared in the header.
`PlotData` is its own `RealPlotData` (multiple inheritance), `DummyData` and
`StringData` own a `RealPlotData` member, `CalculatedPlotData` holds a pointer
to a computed series, and `PlotDataPointer` borrows another series. -/
inductive PlotDataBase where
  | PlotData (self : Ref RealPlotData)
  | PlotDataPointer (mPlotData : PlotDataBase)
  | CalculatedPlotData (mCalculatedData : Option (Ref CalculatedData))
  | DummyData (mRealPlotData : Ref RealPlotData)
  | StringData (mRealPlotData : Ref RealPlotData) (mStringData : List String)
  deriving Repr

/-- The virtual `GetRealPlotData`: `PlotData` returns `this`, `DummyData` and
`StringData` return `&mRealPlotData`, `CalculatedPlotData` returns `nullptr`,
and `PlotDataPointer` returns `mPlotData->GetRealPlotData ()`. -/
def PlotDataBase.GetRealPlotData : PlotDataBase → Option (Ref RealPlotData)
  | .PlotData self => some self
  | .PlotDataPointer mPlotData => mPlotData.GetRealPlotData
  | .CalculatedPlotData _ => none
  | .DummyData mRealPlotData => some mRealPlotData
  | .StringData mRealPlotData _ => some mRealPlotData

/-- The virtual `GetCalculatedData`: the base class returns `nullptr`,
`CalculatedPlotData` returns `mCalculatedData`, and `PlotDataPointer` returns
`mPlotData->GetCalculatedData ()`. -/
def PlotDataBase.GetCalculatedData : PlotDataBase → Option (Ref CalculatedData)
  | .PlotData _ => none
  | .PlotDataPointer mPlotData => mPlotData.GetCalculatedData
  | .CalculatedPlotData mCalculatedData => mCalculatedData
  | .DummyData _ => none
  | .StringData _ _ => none

/-- Modelled from the spec: `PlotDataBase::GetSize` is declared in the header
without a body.  A series exposes `size`: the length of the materialized
buffer when there is one, else the count of the closed-form rule, else 0. -/
def PlotDataBase.GetSize (d : PlotDataBase) : ℤ :=
  match d.GetRealPlotData with
  | some r => (r.val.length : ℤ)
  | none =>
    match d.GetCalculatedData with
    | some c => c.val.GetSize
    | none => 0

/-- Modelled from the spec: `PlotDataBase::GetValue` is declared in the header
without a body.  A series exposes `value(index)`: the entry of the
materialized buffer when there is one, else the value of the closed-form
rule, read as the rational it denotes. -/
def PlotDataBase.GetValue (d : PlotDataBase) (inIndex : ℤ) : ℚ :=
  match d.GetRealPlotData with
  | some r => r.val.getD inIndex.toNat 0
  | none =>
    match d.GetCalculatedData with
    | some c => (c.val.GetValue inIndex).toRat
    | none => 0

/-- The class `PlotDataSelection`, a `vector<int>` of flags. -/
abbrev PlotDataSelection := List ℤ

/-- The constructor `PlotDataSelection (long inSize=0)`: `inSize` flags, all
zero. -/
def PlotDataSelection.new (inSize : ℤ) : PlotDataSelection :=
  List.replicate inSize.toNat 0

/-- Modelled from the spec: `PlotDataSelection::IsSelected` is declared in
the header without a body.  A flag is one per sample index, 0 = unselected,
nonzero = selected; an index outside the mask is not selected. -/
def PlotDataSelection.IsSelected (m : PlotDataSelection) (inIndex : ℤ) : Bool :=
  if inIndex < 0 ∨ (m.length : ℤ) ≤ inIndex then false
  else decide (m.getD inIndex.toNat 0 ≠ 0)

/-- The counting loop behind `GetSelectedCount`: walk the flags and add one
for each selected flag. -/
def PlotDataSelection.countLoop : List ℤ → ℤ → ℤ
  | [], theCount => theCount
  | f :: rest, theCount =>
    PlotDataSelection.countLoop rest (if f ≠ 0 then theCount + 1 else theCount)

/-- Modelled from the spec: `PlotDataSelection::GetSelectedCount` is declared
in the header without a body.  It counts the selected (nonzero) flags. -/
def PlotDataSelection.GetSelectedCount (m : PlotDataSelection) : ℤ :=
  PlotDataSelection.countLoop m 0

/-! ## Plain value types -/

/-- The struct `PStyle`. -/
structure PStyle where
  mFontSize : ℤ := 10
  mFont : String := ""
  mPenWidth : ℤ := 1
  mPenStyle : String := ""
  mVar : List (String × String) := []
  deriving DecidableEq, Repr

/-- The class `PColor`; each channel is an `unsigned char`. -/
structure PColor where
  mR : ℕ := 0
  mG : ℕ := 0
  mB : ℕ := 0
  deriving DecidableEq, Repr

/-- The class `LegendData`. -/
structure LegendData where
  mName : String := ""
  mColor : PColor := {}
  mShow : Bool := true
  mStyle : PStyle := {}
  deriving DecidableEq, Repr

/-! ## Drawing strategies -/

/-- The data members of `DataDrawerBase`.  The two transforms are held by
pointer, embedded as the address of the transform or `none` for
`nullptr`. -/
structure DataDrawerBase where
  mXTrafo : Option ℕ := none
  mYTrafo : Option ℕ := none
  mDrawFast : Bool := false
  mPlotCount : ℤ := 1
  mPlotIndex : ℤ := 0
  deriving DecidableEq, Repr

/-- The class `LineDataDrawer` with its member initializers
`mDrawLine{ true }` and `mDrawPoint{ false }`. -/
structure LineDataDrawer extends DataDrawerBase where
  mDrawLine : Bool := true
  mDrawPoint : Bool := false
  mStyle : PStyle := {}
  deriving DecidableEq, Repr

/-- The constructor `LineDataDrawer () = default`. -/
def LineDataDrawer.default : LineDataDrawer := {}

/-- The constructor `LineDataDrawer (bool DrawLine, bool DrawPoint)`, which
initializes `mDrawLine (DrawLine)` and `mDrawPoint (DrawPoint)`. -/
def LineDataDrawer.new (DrawLine DrawPoint : Bool) : LineDataDrawer :=
  { mDrawLine := DrawLine, mDrawPoint := DrawPoint }

/-- The class `DotDataDrawer: public LineDataDrawer`; it adds no data
member. -/
structure DotDataDrawer extends LineDataDrawer where
  deriving DecidableEq, Repr

/-- The constructor `DotDataDrawer (): LineDataDrawer( false, true ) {}`. -/
def DotDataDrawer.default : DotDataDrawer :=
  { toLineDataDrawer := LineDataDrawer.new false true }

/-- The class `BarDataDrawer`. -/
structure BarDataDrawer extends DataDrawerBase where
  mDrawOnlyLastPoint : Bool := false
  deriving DecidableEq, Repr

/-- A drawing strategy stored in a `DataDrawerList`: one of the concrete
drawers of the header. -/
inductive DataDrawer where
  | line (d : LineDataDrawer)
  | dot (d : DotDataDrawer)
  | bar (d : BarDataDrawer)
  deriving DecidableEq, Repr

/-! ## Series store -/

/-- The data members of `PlotDataContainer`: five parallel lists.  The X and Y
series are required arguments of the registration calls; the legend, the
drawer and the selection may be passed as `nullptr`, embedded as `none`. -/
structure PlotDataContainer where
  mXDataList : List PlotDataBase := []
  mYDataList : List PlotDataBase := []
  mLegendDataList : List (Option LegendData) := []
  mDataDrawerList : List (Option DataDrawer) := []
  mPlotDataSelectionList : List (Option PlotDataSelection) := []
  deriving Repr

/-- Modelled from the spec: the constructor `PlotDataContainer ()` is declared
in the header without a body.  A Series Store is constructed empty. -/
def PlotDataContainer.new : PlotDataContainer := {}

/-- The body `{return mYDataList.size ();}`. -/
def PlotDataContainer.GetPlotCount (c : PlotDataContainer) : ℤ :=
  (c.mYDataList.length : ℤ)

/-- Modelled from the spec: `PlotDataContainer::AddXYPlot` is declared in the
header without a body.  It adds a registration unit (append): one X series,
one Y series, one legend entry, one drawing strategy, one selection mask. -/
def PlotDataContainer.AddXYPlot (c : PlotDataContainer) (inXData inYData : PlotDataBase)
    (inLegendData : Option LegendData) (inDataDrawer : Option DataDrawer)
    (inPlotDataSelection : Option PlotDataSelection) : PlotDataContainer :=
  { mXDataList := c.mXDataList ++ [inXData]
    mYDataList := c.mYDataList ++ [inYData]
    mLegendDataList := c.mLegendDataList ++ [inLegendData]
    mDataDrawerList := c.mDataDrawerList ++ [inDataDrawer]
    mPlotDataSelectionList := c.mPlotDataSelectionList ++ [inPlotDataSelection] }

/-- Modelled from the spec: `PlotDataContainer::SetXYPlot` is declared in the
header without a body.  It replaces the unit at an index; an index out of
bounds is a checked failure that leaves the store as it is. -/
def PlotDataContainer.SetXYPlot (c : PlotDataContainer) (inIndex : ℤ)
    (inXData inYData : PlotDataBase) (inLegendData : Option LegendData)
    (inDataDrawer : Option DataDrawer) (inPlotDataSelection : Option PlotDataSelection) :
    PlotDataContainer :=
  if inIndex < 0 ∨ c.GetPlotCount ≤ inIndex then c
  else
    { mXDataList := c.mXDataList.set inIndex.toNat inXData
      mYDataList := c.mYDataList.set inIndex.toNat inYData
      mLegendDataList := c.mLegendDataList.set inIndex.toNat inLegendData
      mDataDrawerList := c.mDataDrawerList.set inIndex.toNat inDataDrawer
      mPlotDataSelectionList := c.mPlotDataSelectionList.set inIndex.toNat inPlotDataSelection }

/-- Modelled from the spec: `PlotDataContainer::RemoveElement` is declared in
the header without a body.  It removes the unit at an index and the remaining
units shift; an index out of bounds is a checked failure that leaves the store
as it is. -/
def PlotDataContainer.RemoveElement (c : PlotDataContainer) (inIndex : ℤ) : PlotDataContainer :=
  if inIndex < 0 ∨ c.GetPlotCount ≤ inIndex then c
  else
    { mXDataList := c.mXDataList.eraseIdx inIndex.toNat
      mYDataList := c.mYDataList.eraseIdx inIndex.toNat
      mLegendDataList := c.mLegendDataList.eraseIdx inIndex.toNat
      mDataDrawerList := c.mDataDrawerList.eraseIdx inIndex.toNat
      mPlotDataSelectionList := c.mPlotDataSelectionList.eraseIdx inIndex.toNat }

/-- Modelled from the spec: `PlotDataContainer::ClearData` is declared in the
header without a body.  It clears all units. -/
def PlotDataContainer.ClearData (_c : PlotDataContainer) : PlotDataContainer :=
  { mXDataList := []
    mYDataList := []
    mLegendDataList := []
    mDataDrawerList := []
    mPlotDataSelectionList := [] }

/-- Modelled from the spec: `PlotDataContainer::SetDataDrawer` is declared in
the header without a body.  It replaces the drawing strategy of the unit at an
index and reports success; an index out of bounds fails and leaves the store
as it is. -/
def PlotDataContainer.SetDataDrawer (c : PlotDataContainer) (inIndex : ℤ)
    (inDataDrawer : Option DataDrawer) : Bool × PlotDataContainer :=
  if inIndex < 0 ∨ c.GetPlotCount ≤ inIndex then (false, c)
  else (true, { c with mDataDrawerList := c.mDataDrawerList.set inIndex.toNat inDataDrawer })

/-- One call of a mutating member function of `PlotDataContainer`. -/
inductive StoreCall where
  | AddXYPlot (inXData inYData : PlotDataBase) (inLegendData : Option LegendData)
      (inDataDrawer : Option DataDrawer) (inPlotDataSelection : Option PlotDataSelection)
  | SetXYPlot (inIndex : ℤ) (inXData inYData : PlotDataBase)
      (inLegendData : Option LegendData) (inDataDrawer : Option DataDrawer)
      (inPlotDataSelection : Option PlotDataSelection)
  | RemoveElement (inIndex : ℤ)
  | ClearData
  | SetDataDrawer (inIndex : ℤ) (inDataDrawer : Option DataDrawer)

/-- The store after one call. -/
def PlotDataContainer.call (c : PlotDataContainer) : StoreCall → PlotDataContainer
  | .AddXYPlot x y l d s => c.AddXYPlot x y l d s
  | .SetXYPlot i x y l d s => c.SetXYPlot i x y l d s
  | .RemoveElement i => c.RemoveElement i
  | .ClearData => c.ClearData
  | .SetDataDrawer i d => (c.SetDataDrawer i d).2

/-- The store reached from a newly constructed one by a sequence of calls. -/
def PlotDataContainer.afterCalls (calls : List StoreCall) : PlotDataContainer :=
  calls.foldl PlotDataContainer.call PlotDataContainer.new

/-! ## Range computation -/

/-- The data members of `TickInfo`. -/
structure TickInfo where
  mAutoTick : Bool := true
  mAutoTickSize : Bool := true
  mTicksOn : Bool := true
  mTickDivision : ℤ := 1
  mMajorTickSpan : ℚ := 1
  mMajorTickScreenSize : ℤ := 1
  mMinorTickScreenSize : ℤ := 1
  mFormatString : String := "%.0f"
  mStyle : PStyle := {}
  deriving DecidableEq, Repr

/-- The data members of `AxisSetup` with their member initializers. -/
structure AxisSetup where
  mMin : ℚ := 0
  mMax : ℚ := 0
  mAutoScaleMin : Bool := true
  mAutoScaleMax : Bool := true
  mAscending : Bool := true
  mLogScale : Bool := false
  mCrossOrigin : Bool := true
  mMaxDecades : ℤ := -1
  mLogFactor : ℤ := 1
  mLogBase : ℚ := 10
  mLabel : String := ""
  mStyle : PStyle := {}
  mTickInfo : TickInfo := {}
  deriving DecidableEq, Repr

/-- The body `{mMin = inMin;}`. -/
def AxisSetup.SetMin (a : AxisSetup) (inMin : ℚ) : AxisSetup :=
  { a with mMin := inMin }

/-- The body `{mMax = inMax;}`. -/
def AxisSetup.SetMax (a : AxisSetup) (inMax : ℚ) : AxisSetup :=
  { a with mMax := inMax }

/-- The body `{mAutoScaleMin = mAutoScaleMax = inBool;}`. -/
def AxisSetup.SetAutoScale (a : AxisSetup) (inBool : Bool) : AxisSetup :=
  { a with mAutoScaleMin := inBool, mAutoScaleMax := inBool }

/-- The body `{return mAutoScaleMin && mAutoScaleMax;}`. -/
def AxisSetup.IsAutoScale (a : AxisSetup) : Bool :=
  a.mAutoScaleMin && a.mAutoScaleMax

/-- The constructor `AxisSetup () = default`: every member takes its member
initializer. -/
def AxisSetup.new : AxisSetup := {}

/-- One call of a mutating member function of `AxisSetup`. -/
inductive AxisCall where
  | SetMin (inMin : ℚ)
  | SetMax (inMax : ℚ)
  | SetAutoScale (inBool : Bool)
  deriving DecidableEq, Repr

/-- The axis after one call. -/
def AxisSetup.call (a : AxisSetup) : AxisCall → AxisSetup
  | .SetMin inMin => a.SetMin inMin
  | .SetMax inMax => a.SetMax inMax
  | .SetAutoScale inBool => a.SetAutoScale inBool

/-- The axis reached from a default-constructed one by a sequence of calls. -/
def AxisSetup.afterCalls (calls : List AxisCall) : AxisSetup :=
  calls.foldl AxisSetup.call AxisSetup.new

/-- The argument of the last `SetMin` call of a sequence, or 0 (the member
initializer of `mMin`) when there is none. -/
def lastSetMin (calls : List AxisCall) : ℚ :=
  (calls.reverse.findSome? fun k =>
    match k with
    | .SetMin inMin => some inMin
    | _ => none).getD 0

/-- The argument of the last `SetMax` call of a sequence, or 0 (the member
initializer of `mMax`) when there is none. -/
def lastSetMax (calls : List AxisCall) : ℚ :=
  (calls.reverse.findSome? fun k =>
    match k with
    | .SetMax inMax => some inMax
    | _ => none).getD 0

/-- The argument of the last `SetAutoScale` call of a sequence, or `true`
(the member initializer of both autoscale flags) when there is none. -/
def lastSetAutoScale (calls : List AxisCall) : Bool :=
  (calls.reverse.findSome? fun k =>
    match k with
    | .SetAutoScale inBool => some inBool
    | _ => none).getD true

/-! ## Scalar transforms -/

/-- The data members of `LinTrafo`, over an exact number field `K`. -/
structure LinTrafo (K : Type) where
  mOffset : K
  mSlope : K

/-- Modelled from the spec: `LinTrafo::Transform` is declared in the header
without a body.  Linear: `screen = offset + slope * value`. -/
def LinTrafo.Transform {K : Type} [Field K] (t : LinTrafo K) (inValue : K) : K :=
  t.mOffset + t.mSlope * inValue

/-- Modelled from the spec: `LinTrafo::TransformBack` is declared in the
header without a body.  Inverse: `value = (screen - offset) / slope`. -/
def LinTrafo.TransformBack {K : Type} [Field K] (t : LinTrafo K) (inValue : K) : K :=
  (inValue - t.mOffset) / t.mSlope

/-- The data members of `LogTrafo`, over an exact number field `K`. -/
structure LogTrafo (K : Type) where
  mOffset : K
  mSlope : K
  mBase : K
  mFactor : K

/-- Modelled from the spec: `LogTrafo::Transform` is declared in the header
without a body.  Logarithmic: `screen = offset + slope * safeLog(value, base,
factor)`.  The function `SafeLog (inFloat, inBase, inFac)` is declared in the
header without a body as well and is a parameter here. -/
def LogTrafo.Transform {K : Type} [Field K] (SafeLog : K → K → K → K) (t : LogTrafo K)
    (inValue : K) : K :=
  t.mOffset + t.mSlope * SafeLog inValue t.mBase t.mFactor

/-- Modelled from the spec: `LogTrafo::TransformBack` is declared in the
header without a body.  The inverse undoes offset and slope and applies
`safeExp`.  The function `SafeExp (inFloat, inBase, inFac)` is declared in the
header without a body as well and is a parameter here. -/
def LogTrafo.TransformBack {K : Type} [Field K] (SafeExp : K → K → K → K) (t : LogTrafo K)
    (inValue : K) : K :=
  SafeExp ((inValue - t.mOffset) / t.mSlope) t.mBase t.mFactor

/-- Modelled from the spec: `SafeLog (inFloat, inBase, inFac)` is declared in
the header without a body.  The logarithm of the value to the base, times the
multiplicative factor; a non-positive input is guarded and yields a defined
sentinel instead of a domain error.  The logarithm `logb` of the math library
and the sentinel are parameters. -/
def SafeLog {K : Type} [LinearOrderedField K] (logb : K → K → K) (sentinel : K)
    (inFloat inBase inFac : K) : K :=
  if inFloat ≤ 0 then sentinel else inFac * logb inBase inFloat

/-- Modelled from the spec: `SafeExp (inFloat, inBase, inFac)` is declared in
the header without a body.  The inverse of `SafeLog`: the base raised to the
value divided by the factor.  The power function `pow` of the math library is
a parameter; the guard against overflow has nothing to guard in exact
arithmetic and is left out. -/
def SafeExp {K : Type} [Field K] (pow : K → K → K) (inFloat inBase inFac : K) : K :=
  pow inBase (inFloat / inFac)

/-! ## Tick generators -/

/-- A bound on the exponents `k` with `b ^ k ≤ y`, for a base `b > 1`. -/
def searchBound (b y : ℚ) : ℕ := ⌈y / (b - 1)⌉₊

/-- The greatest natural `k` with `b ^ k ≤ y`, for `b > 1` and `y ≥ 1`. -/
def natFloorLog (b y : ℚ) : ℕ :=
  Nat.findGreatest (fun k => b ^ k ≤ y) (searchBound b y)

/-- The least natural `k` with `y ≤ b ^ k`, for `b > 1` and `y ≥ 1`. -/
def natCeilLog (b y : ℚ) : ℕ :=
  if y ≤ 1 then 0 else Nat.findGreatest (fun k => b ^ k < y) (searchBound b y) + 1

/-- The integer `floor(log_b(x))` for a base `b > 1` and `x > 0`, computed
exactly on the rationals. -/
def floorLog (b x : ℚ) : ℤ :=
  if 1 ≤ x then (natFloorLog b x : ℤ) else -(natCeilLog b x⁻¹ : ℤ)

/-- The integer `ceil(log_b(x))` for a base `b > 1` and `x > 0`, computed
exactly on the rationals. -/
def ceilLog (b x : ℚ) : ℤ :=
  if 1 ≤ x then (natCeilLog b x : ℤ) else -(natFloorLog b x⁻¹ : ℤ)

/-- Among 1, 2 and 5 the one closest to `x`, ties toward the smaller. -/
def closestOf125 (x : ℚ) : ℚ :=
  if x - 1 ≤ 2 - x then 1 else if x - 2 ≤ 5 - x then 2 else 5

/-- Modelled from the spec: `TickInfo::RoundSpan` is declared in the header
without a body.  The span is scaled by the power of ten `10 ^ n` that brings
it into its leading decade, and among 1/2/5 the closest is picked, ties
toward the smaller.  A scaled value in `[1,5)` is treated as the spec words
it; a scaled value in `[5,10)` has 5 as its closest. -/
def TickInfo.RoundSpan (inSpan : ℚ) : ℚ :=
  closestOf125 (inSpan / 10 ^ floorLog 10 inSpan) * 10 ^ floorLog 10 inSpan

/-- The data members of `TickIterator`; the axis it reads is held by pointer
and set through `SetAxisSetup` before use. -/
structure TickIterator where
  mAxisSetup : AxisSetup := {}
  deriving DecidableEq, Repr

/-- The body `{return true;}` of the virtual `TickIterator::AdjustRange`,
with the values of `ioMin` and `ioMax` after the call. -/
def TickIterator.AdjustRange (_t : TickIterator) (ioMin ioMax : ℚ) : Bool × ℚ × ℚ :=
  (true, ioMin, ioMax)

/-- The data members of `LogTickIterator`. -/
structure LogTickIterator extends TickIterator where
  mCurrentTick : ℚ := 0
  mCount : ℤ := 0
  mDelta : ℚ := 0
  deriving DecidableEq, Repr

/-- Modelled from the spec: `LogTickIterator::RoundDown` is declared in the
header without a body.  `RoundDown(x) = base^floor(log_base(x))`, with the
base of the axis. -/
def LogTickIterator.RoundDown (t : LogTickIterator) (inFloat : ℚ) : ℚ :=
  t.mAxisSetup.mLogBase ^ floorLog t.mAxisSetup.mLogBase inFloat

/-- Modelled from the spec: `LogTickIterator::RoundUp` is declared in the
header without a body.  `RoundUp(x) = base^ceil(log_base(x))`, with the base
of the axis. -/
def LogTickIterator.RoundUp (t : LogTickIterator) (inFloat : ℚ) : ℚ :=
  t.mAxisSetup.mLogBase ^ ceilLog t.mAxisSetup.mLogBase inFloat

/-- Modelled from the spec: `LogTickIterator::AdjustRange` is declared in the
header without a body.  A non-positive bound is rejected; the minimum is
rounded down and the maximum up to the nearest decade boundary; when a
maximum decade count is configured (it is -1 by default), a range spanning
more decades is rejected.  On failure the bounds are returned unchanged. -/
def LogTickIterator.AdjustRange (t : LogTickIterator) (ioMin ioMax : ℚ) : Bool × ℚ × ℚ :=
  if ioMin ≤ 0 ∨ ioMax ≤ 0 then (false, ioMin, ioMax)
  else if 0 ≤ t.mAxisSetup.mMaxDecades ∧
      t.mAxisSetup.mMaxDecades <
        ceilLog t.mAxisSetup.mLogBase ioMax - floorLog t.mAxisSetup.mLogBase ioMin then
    (false, ioMin, ioMax)
  else (true, t.RoundDown ioMin, t.RoundUp ioMax)

/-- The data members of `LinTickIterator`. -/
structure LinTickIterator extends TickIterator where
  mCurrentTick : ℚ := 0
  mCount : ℤ := 0
  mDelta : ℚ := 0
  mFormatString : String := ""
  deriving DecidableEq, Repr

/-- The class `LinTickIterator` declares no `AdjustRange`, so a call on it
runs the virtual function it inherits, `TickIterator::AdjustRange`. -/
def LinTickIterator.AdjustRange (t : LinTickIterator) (ioMin ioMax : ℚ) : Bool × ℚ × ℚ :=
  t.toTickIterator.AdjustRange ioMin ioMax

/-- The data members of `NamedTickIterator: public LinTickIterator`. -/
structure NamedTickIterator extends LinTickIterator where
  mStringList : List String := []
  deriving DecidableEq, Repr

/-- The class `NamedTickIterator` declares no `AdjustRange` either, so a
call on it runs the function its base `LinTickIterator` inherits. -/
def NamedTickIterator.AdjustRange (t : NamedTickIterator) (ioMin ioMax : ℚ) : Bool × ℚ × ℚ :=
  t.toLinTickIterator.AdjustRange ioMin ioMax

/-- The five parallel lists of a store have the same length. -/
def PlotDataContainer.Aligned (c : PlotDataContainer) : Prop :=
  c.mXDataList.length = c.mYDataList.length ∧
  c.mLegendDataList.length = c.mYDataList.length ∧
  c.mDataDrawerList.length = c.mYDataList.length ∧
  c.mPlotDataSelectionList.length = c.mYDataList.length

/-! ## Theorems -/

/-! ### Selection mask, computed series, borrowed view, drawers -/

theorem countLoop_eq (m : List ℤ) (theCount : ℤ) :
    PlotDataSelection.countLoop m theCount =
      theCount + ((m.filter fun f => decide (f ≠ 0)).length : ℤ) := by
  induction m generalizing theCount with
  | nil => simp [PlotDataSelection.countLoop]
  | cons f rest ih =>
    rw [PlotDataSelection.countLoop, ih]
    by_cases hf : f = 0
    · simp [hf]
    · simp [hf]
      ring

/-- C7: for a selection mask `m` and an index `i` within its length,
`IsSelected (i)` is true exactly when flag `i` is non-zero, and
`GetSelectedCount ()` is the number of non-zero flags of `m`. -/
theorem selection_mask_flags (m : PlotDataSelection) (i : ℤ) (h0 : 0 ≤ i)
    (hi : i < (m.length : ℤ)) :
    (PlotDataSelection.IsSelected m i = true ↔ m.getD i.toNat 0 ≠ 0) ∧
    PlotDataSelection.GetSelectedCount m = ((m.filter fun f => decide (f ≠ 0)).length : ℤ) := by
  constructor
  · unfold PlotDataSelection.IsSelected
    rw [if_neg (by omega)]
    simp
  · unfold PlotDataSelection.GetSelectedCount
    rw [countLoop_eq]
    simp

/-- C7, on the flags `[0,1,0]`: index 1 is selected, and the count is 1. -/
theorem selection_mask_flags_witness :
    (PlotDataSelection.IsSelected [0, 1, 0] 1 = true ↔ ([0, 1, 0] : List ℤ).getD 1 0 ≠ 0) ∧
    PlotDataSelection.GetSelectedCount [0, 1, 0] = 1 :=
  selection_mask_flags [0, 1, 0] 1 (by decide) (by decide)

/-- C9: a borrowed view is transparent: `PlotDataPointer (s)` returns from
`GetRealPlotData ()` and `GetCalculatedData ()` the very pointers that `s`
returns, for every series `s`. -/
theorem plotDataPointer_transparent (s : PlotDataBase) :
    (PlotDataBase.PlotDataPointer s).GetRealPlotData = s.GetRealPlotData ∧
    (PlotDataBase.PlotDataPointer s).GetCalculatedData = s.GetCalculatedData :=
  ⟨rfl, rfl⟩

/-- C10: a default-constructed `DotDataDrawer` has `mDrawLine = false` and
`mDrawPoint = true`, a default-constructed `LineDataDrawer` has
`mDrawLine = true` and `mDrawPoint = false`, and apart from these two flags
the dot drawer is the default line drawer. -/
theorem dotDataDrawer_flags :
    DotDataDrawer.default.mDrawLine = false ∧
    DotDataDrawer.default.mDrawPoint = true ∧
    LineDataDrawer.default.mDrawLine = true ∧
    LineDataDrawer.default.mDrawPoint = false ∧
    DotDataDrawer.default.toLineDataDrawer =
      { LineDataDrawer.default with mDrawLine := false, mDrawPoint := true } :=
  ⟨rfl, rfl, rfl, rfl, rfl⟩

/-! ### The parallel lists of the series store -/

theorem aligned_new : PlotDataContainer.new.Aligned := by
  simp [PlotDataContainer.Aligned, PlotDataContainer.new]

theorem aligned_call (c : PlotDataContainer) (k : StoreCall) (h : c.Aligned) :
    (c.call k).Aligned := by
  obtain ⟨hx, hl, hd, hs⟩ := h
  cases k with
  | AddXYPlot x y l d s =>
    simp [PlotDataContainer.call, PlotDataContainer.AddXYPlot, PlotDataContainer.Aligned, hx, hl,
      hd, hs]
  | SetXYPlot i x y l d s =>
    simp only [PlotDataContainer.call, PlotDataContainer.SetXYPlot]
    split_ifs
    · exact ⟨hx, hl, hd, hs⟩
    · simp [PlotDataContainer.Aligned, hx, hl, hd, hs]
  | RemoveElement i =>
    simp only [PlotDataContainer.call, PlotDataContainer.RemoveElement]
    split_ifs
    · exact ⟨hx, hl, hd, hs⟩
    · simp [PlotDataContainer.Aligned, List.length_eraseIdx, hx, hl, hd, hs]
  | ClearData =>
    simp [PlotDataContainer.call, PlotDataContainer.ClearData, PlotDataContainer.Aligned]
  | SetDataDrawer i d =>
    simp only [PlotDataContainer.call, PlotDataContainer.SetDataDrawer]
    split_ifs
    · exact ⟨hx, hl, hd, hs⟩
    · simp [PlotDataContainer.Aligned, hx, hl, hd, hs]

theorem aligned_foldl (calls : List StoreCall) (c : PlotDataContainer) (h : c.Aligned) :
    (calls.foldl PlotDataContainer.call c).Aligned := by
  induction calls generalizing c with
  | nil => exact h
  | cons k rest ih => exact ih _ (aligned_call c k h)

/-- C6: in every store reached from a newly constructed one by a sequence of
`AddXYPlot`, `SetXYPlot`, `RemoveElement`, `ClearData` and `SetDataDrawer`
calls, the X-series, Y-series, legend, drawer and selection lists all have
the length that `GetPlotCount ()` returns. -/
theorem store_lists_same_length (calls : List StoreCall) :
    ((PlotDataContainer.afterCalls calls).mXDataList.length : ℤ) =
      (PlotDataContainer.afterCalls calls).GetPlotCount ∧
    ((PlotDataContainer.afterCalls calls).mYDataList.length : ℤ) =
      (PlotDataContainer.afterCalls calls).GetPlotCount ∧
    ((PlotDataContainer.afterCalls calls).mLegendDataList.length : ℤ) =
      (PlotDataContainer.afterCalls calls).GetPlotCount ∧
    ((PlotDataContainer.afterCalls calls).mDataDrawerList.length : ℤ) =
      (PlotDataContainer.afterCalls calls).GetPlotCount ∧
    ((PlotDataContainer.afterCalls calls).mPlotDataSelectionList.length : ℤ) =
      (PlotDataContainer.afterCalls calls).GetPlotCount := by
  obtain ⟨hx, hl, hd, hs⟩ := aligned_foldl calls PlotDataContainer.new aligned_new
  unfold PlotDataContainer.afterCalls PlotDataContainer.GetPlotCount
  exact ⟨by rw [hx], rfl, by rw [hl], by rw [hd], by rw [hs]⟩

/-! ### Exact floor and ceiling of the logarithm, and the tick generators -/

theorem pow_le_searchBound {b y : ℚ} (hb : 1 < b) {k : ℕ} (h : b ^ k ≤ y) :
    k ≤ searchBound b y := by
  have hb1 : 0 < b - 1 := by linarith
  have hbern : 1 + (k : ℚ) * (b - 1) ≤ b ^ k := by
    have := one_add_mul_le_pow (show (-2 : ℚ) ≤ b - 1 by linarith) k
    simpa using this
  have hk : (k : ℚ) ≤ y / (b - 1) := by
    rw [le_div_iff₀ hb1]
    linarith
  unfold searchBound
  exact_mod_cast hk.trans (Nat.le_ceil _)

theorem natFloorLog_spec {b y : ℚ} (hb : 1 < b) (hy : 1 ≤ y) :
    b ^ natFloorLog b y ≤ y ∧ y < b ^ (natFloorLog b y + 1) := by
  unfold natFloorLog
  constructor
  · exact Nat.findGreatest_spec (P := fun k => b ^ k ≤ y) (Nat.zero_le _) (by simpa using hy)
  · by_contra hcon
    push_neg at hcon
    have hle := pow_le_searchBound hb hcon
    have := Nat.le_findGreatest (P := fun k => b ^ k ≤ y) hle hcon
    omega

theorem natCeilLog_spec {b y : ℚ} (hb : 1 < b) (hy : 1 < y) :
    ∃ g : ℕ, natCeilLog b y = g + 1 ∧ b ^ g < y ∧ y ≤ b ^ (g + 1) := by
  unfold natCeilLog
  rw [if_neg (not_le.mpr hy)]
  refine ⟨_, rfl, ?_, ?_⟩
  · exact Nat.findGreatest_spec (P := fun k => b ^ k < y) (Nat.zero_le _) (by simpa using hy)
  · by_contra hcon
    push_neg at hcon
    have hle := pow_le_searchBound hb hcon.le
    have := Nat.le_findGreatest (P := fun k => b ^ k < y) hle hcon
    omega

theorem floorLog_spec {b x : ℚ} (hb : 1 < b) (hx : 0 < x) :
    b ^ floorLog b x ≤ x ∧ x < b ^ (floorLog b x + 1) := by
  have hb0 : 0 < b := by linarith
  unfold floorLog
  split_ifs with h1
  · have := natFloorLog_spec hb h1
    refine ⟨by exact_mod_cast this.1, ?_⟩
    have h2 : ((natFloorLog b x : ℤ) + 1) = ((natFloorLog b x + 1 : ℕ) : ℤ) := by push_cast; rfl
    rw [h2, zpow_natCast]
    exact this.2
  · push_neg at h1
    have hy : 1 < x⁻¹ := (one_lt_inv₀ hx).mpr h1
    obtain ⟨g, hg, hlt, hle⟩ := natCeilLog_spec hb hy
    rw [hg]
    constructor
    · rw [zpow_neg, zpow_natCast]
      rw [inv_le_comm₀ (pow_pos hb0 _) hx]
      exact hle
    · have h2 : (-((g + 1 : ℕ) : ℤ) + 1) = -(g : ℤ) := by push_cast; ring
      rw [h2, zpow_neg, zpow_natCast]
      rw [lt_inv_comm₀ hx (pow_pos hb0 _)]
      exact hlt

theorem ceilLog_spec {b x : ℚ} (hb : 1 < b) (hx : 0 < x) :
    b ^ (ceilLog b x - 1) < x ∧ x ≤ b ^ ceilLog b x := by
  have hb0 : 0 < b := by linarith
  unfold ceilLog
  split_ifs with h1
  · rcases eq_or_lt_of_le h1 with h | h
    · have : natCeilLog b x = 0 := by simp [natCeilLog, ← h]
      rw [this, ← h]
      simp only [Nat.cast_zero, zero_sub, zpow_neg, zpow_one, zpow_zero, le_refl, and_true]
      exact inv_lt_one_of_one_lt₀ hb
    · obtain ⟨g, hg, hlt, hle⟩ := natCeilLog_spec hb h
      rw [hg]
      have h2 : (((g + 1 : ℕ) : ℤ) - 1) = (g : ℤ) := by push_cast; ring
      rw [h2, zpow_natCast, zpow_natCast]
      exact ⟨hlt, hle⟩
  · push_neg at h1
    have hy : 1 ≤ x⁻¹ := ((one_lt_inv₀ hx).mpr h1).le
    have := natFloorLog_spec hb hy
    constructor
    · have h2 : (-(natFloorLog b x⁻¹ : ℤ) - 1) = -((natFloorLog b x⁻¹ + 1 : ℕ) : ℤ) := by
        push_cast; ring
      rw [h2, zpow_neg, zpow_natCast]
      rw [inv_lt_comm₀ (pow_pos hb0 _) hx]
      exact this.2
    · rw [zpow_neg, zpow_natCast]
      rw [le_inv_comm₀ hx (pow_pos hb0 _)]
      exact this.1


theorem floorLog_eq_floor_logb {b x : ℚ} (hb : 1 < b) (hx : 0 < x) :
    floorLog b x = ⌊Real.logb (b : ℝ) (x : ℝ)⌋ := by
  have hbR : (1 : ℝ) < (b : ℝ) := by exact_mod_cast hb
  have hxR : (0 : ℝ) < (x : ℝ) := by exact_mod_cast hx
  obtain ⟨h1, h2⟩ := floorLog_spec hb hx
  symm
  rw [Int.floor_eq_iff]
  constructor
  · rw [Real.le_logb_iff_rpow_le hbR hxR, Real.rpow_intCast]
    exact_mod_cast h1
  · rw [Real.logb_lt_iff_lt_rpow hbR hxR]
    have hc : ((floorLog b x : ℤ) : ℝ) + 1 = ((floorLog b x + 1 : ℤ) : ℝ) := by push_cast; ring
    rw [hc, Real.rpow_intCast]
    exact_mod_cast h2

theorem ceilLog_eq_ceil_logb {b x : ℚ} (hb : 1 < b) (hx : 0 < x) :
    ceilLog b x = ⌈Real.logb (b : ℝ) (x : ℝ)⌉ := by
  have hbR : (1 : ℝ) < (b : ℝ) := by exact_mod_cast hb
  have hxR : (0 : ℝ) < (x : ℝ) := by exact_mod_cast hx
  obtain ⟨h1, h2⟩ := ceilLog_spec hb hx
  symm
  rw [Int.ceil_eq_iff]
  constructor
  · rw [Real.lt_logb_iff_rpow_lt hbR hxR]
    have hc : ((ceilLog b x : ℤ) : ℝ) - 1 = ((ceilLog b x - 1 : ℤ) : ℝ) := by push_cast; ring
    rw [hc, Real.rpow_intCast]
    exact_mod_cast h1
  · rw [Real.logb_le_iff_le_rpow hbR hxR, Real.rpow_intCast]
    exact_mod_cast h2

/-- C2: for every positive span, `RoundSpan` returns `m * 10 ^ n` with `m`
one of 1, 2, 5 and `n` an integer, namely the decade of the span:
`10 ^ n ≤ span < 10 ^ (n + 1)`. -/
theorem roundSpan_one_two_five (inSpan : ℚ) (h : 0 < inSpan) :
    ∃ m : ℚ, ∃ n : ℤ, (m = 1 ∨ m = 2 ∨ m = 5) ∧ TickInfo.RoundSpan inSpan = m * 10 ^ n ∧
      (10 : ℚ) ^ n ≤ inSpan ∧ inSpan < (10 : ℚ) ^ (n + 1) := by
  refine ⟨closestOf125 (inSpan / 10 ^ floorLog 10 inSpan), floorLog 10 inSpan, ?_, rfl,
    floorLog_spec (by norm_num) h⟩
  unfold closestOf125
  split_ifs
  · exact Or.inl rfl
  · exact Or.inr (Or.inl rfl)
  · exact Or.inr (Or.inr rfl)

/-- C2, on the span 7. -/
theorem roundSpan_one_two_five_witness :
    ∃ m : ℚ, ∃ n : ℤ, (m = 1 ∨ m = 2 ∨ m = 5) ∧ TickInfo.RoundSpan 7 = m * 10 ^ n ∧
      (10 : ℚ) ^ n ≤ 7 ∧ (7 : ℚ) < (10 : ℚ) ^ (n + 1) :=
  roundSpan_one_two_five 7 (by norm_num)

/-- C3: for a logarithmic axis with base > 1 and `0 < min ≤ max`, a
successful `AdjustRange` leaves `RoundDown (min)` and `RoundUp (max)` in the
bounds; it succeeds when no decade cap is configured or the cap is not
exceeded; `RoundDown (min) = base ^ floor(log_base(min)) ≤ min` and
`RoundUp (max) = base ^ ceil(log_base(max)) ≥ max`. -/
theorem logTickIterator_adjustRange_outward (t : LogTickIterator) (ioMin ioMax : ℚ)
    (hb : 1 < t.mAxisSetup.mLogBase) (hmin : 0 < ioMin) (hle : ioMin ≤ ioMax) :
    ((t.AdjustRange ioMin ioMax).1 = true →
      (t.AdjustRange ioMin ioMax).2 = (t.RoundDown ioMin, t.RoundUp ioMax)) ∧
    (t.mAxisSetup.mMaxDecades < 0 ∨
        ceilLog t.mAxisSetup.mLogBase ioMax - floorLog t.mAxisSetup.mLogBase ioMin ≤
          t.mAxisSetup.mMaxDecades →
      (t.AdjustRange ioMin ioMax).1 = true) ∧
    t.RoundDown ioMin ≤ ioMin ∧ ioMax ≤ t.RoundUp ioMax ∧
    ((t.RoundDown ioMin : ℚ) : ℝ) =
      ((t.mAxisSetup.mLogBase : ℚ) : ℝ) ^
        ⌊Real.logb ((t.mAxisSetup.mLogBase : ℚ) : ℝ) ((ioMin : ℚ) : ℝ)⌋ ∧
    ((t.RoundUp ioMax : ℚ) : ℝ) =
      ((t.mAxisSetup.mLogBase : ℚ) : ℝ) ^
        ⌈Real.logb ((t.mAxisSetup.mLogBase : ℚ) : ℝ) ((ioMax : ℚ) : ℝ)⌉ := by
  have hmax : 0 < ioMax := lt_of_lt_of_le hmin hle
  have hpos : ¬(ioMin ≤ 0 ∨ ioMax ≤ 0) := by
    rintro (h | h) <;> linarith
  refine ⟨?_, ?_, (floorLog_spec hb hmin).1, (ceilLog_spec hb hmax).2, ?_, ?_⟩
  · intro hs
    unfold LogTickIterator.AdjustRange at hs ⊢
    rw [if_neg hpos] at hs ⊢
    by_cases hcap : 0 ≤ t.mAxisSetup.mMaxDecades ∧ t.mAxisSetup.mMaxDecades <
        ceilLog t.mAxisSetup.mLogBase ioMax - floorLog t.mAxisSetup.mLogBase ioMin
    · rw [if_pos hcap] at hs
      exact absurd hs (by simp)
    · rw [if_neg hcap]
  · intro hcap
    unfold LogTickIterator.AdjustRange
    rw [if_neg hpos, if_neg (by omega)]
  · unfold LogTickIterator.RoundDown
    rw [← floorLog_eq_floor_logb hb hmin]
    push_cast
    rfl
  · unfold LogTickIterator.RoundUp
    rw [← ceilLog_eq_ceil_logb hb hmax]
    push_cast
    rfl

/-- C3, on the default axis (base 10, no decade cap) with the range
`[3, 250]`. -/
theorem logTickIterator_adjustRange_outward_witness :
    (LogTickIterator.AdjustRange {} 3 250).1 = true ∧
    (LogTickIterator.AdjustRange {} 3 250).2 =
      (LogTickIterator.RoundDown {} 3, LogTickIterator.RoundUp {} 250) ∧
    LogTickIterator.RoundDown {} 3 ≤ 3 ∧ (250 : ℚ) ≤ LogTickIterator.RoundUp {} 250 := by
  have h := logTickIterator_adjustRange_outward {} 3 250 (by norm_num) (by norm_num)
    (by norm_num)
  have hs := h.2.1 (Or.inl (by decide))
  exact ⟨hs, h.1 hs, h.2.2.1, h.2.2.2.1⟩

/-! ### Scalar transforms -/

theorem logTrafo_roundtrip_of_inverse {K : Type} [Field K] (SafeLog SafeExp : K → K → K → K)
    (log : LogTrafo K) (hlog : log.mSlope ≠ 0) (v : K)
    (hinv : SafeExp (SafeLog v log.mBase log.mFactor) log.mBase log.mFactor = v) :
    log.TransformBack SafeExp (log.Transform SafeLog v) = v := by
  unfold LogTrafo.TransformBack LogTrafo.Transform
  have h : (log.mOffset + log.mSlope * SafeLog v log.mBase log.mFactor - log.mOffset)
      / log.mSlope = SafeLog v log.mBase log.mFactor := by
    field_simp
  rw [h]
  exact hinv

theorem safeExp_safeLog_real (sentinel b f v : ℝ) (hb : 0 < b) (hb1 : b ≠ 1) (hf : f ≠ 0)
    (hv : 0 < v) :
    SafeExp (fun x y : ℝ => x ^ y) (SafeLog Real.logb sentinel v b f) b f = v := by
  unfold SafeExp SafeLog
  rw [if_neg (not_le.mpr hv), mul_div_cancel_left₀ _ hf]
  exact Real.rpow_logb hb hb1 hv

/-- C1, as stated, fails for the logarithmic transform with a non-zero
slope: with factor 0 (offset 3, slope 2, base 10) the values 100 and 10 have
the same screen coordinate and 100 is not recovered; with base 1 and with
base 0 (factor 1) the value 100 is not recovered either. -/
theorem logTrafo_degenerate_not_inverted :
    (LogTrafo.mk (3 : ℝ) 2 10 0).mSlope ≠ 0 ∧ (LogTrafo.mk (3 : ℝ) 2 1 1).mSlope ≠ 0 ∧
    (LogTrafo.mk (3 : ℝ) 2 0 1).mSlope ≠ 0 ∧ (0 : ℝ) < 100 ∧ (0 : ℝ) < 10 ∧
    LogTrafo.Transform (SafeLog Real.logb 0) ⟨3, 2, 10, 0⟩ (100 : ℝ) =
      LogTrafo.Transform (SafeLog Real.logb 0) ⟨3, 2, 10, 0⟩ (10 : ℝ) ∧
    LogTrafo.TransformBack (SafeExp fun x y : ℝ => x ^ y) ⟨3, 2, 10, 0⟩
      (LogTrafo.Transform (SafeLog Real.logb 0) ⟨3, 2, 10, 0⟩ (100 : ℝ)) ≠ 100 ∧
    LogTrafo.TransformBack (SafeExp fun x y : ℝ => x ^ y) ⟨3, 2, 1, 1⟩
      (LogTrafo.Transform (SafeLog Real.logb 0) ⟨3, 2, 1, 1⟩ (100 : ℝ)) ≠ 100 ∧
    LogTrafo.TransformBack (SafeExp fun x y : ℝ => x ^ y) ⟨3, 2, 0, 1⟩
      (LogTrafo.Transform (SafeLog Real.logb 0) ⟨3, 2, 0, 1⟩ (100 : ℝ)) ≠ 100 := by
  refine ⟨by norm_num, by norm_num, by norm_num, by norm_num, by norm_num, ?_, ?_, ?_, ?_⟩
  · simp [LogTrafo.Transform, SafeLog]
  · simp [LogTrafo.TransformBack, LogTrafo.Transform, SafeExp, SafeLog]
  · simp [LogTrafo.TransformBack, LogTrafo.Transform, SafeExp, SafeLog]
  · simp only [LogTrafo.TransformBack, LogTrafo.Transform, SafeExp, SafeLog]
    intro h
    rcases eq_or_ne ((3 + 2 * (if (100 : ℝ) ≤ 0 then 0 else 1 * Real.logb 0 100) - 3) / 2 / 1)
      0 with h0 | h0
    · rw [h0, Real.rpow_zero] at h
      norm_num at h
    · rw [Real.zero_rpow h0] at h
      norm_num at h

/-- C1, amended: with a non-zero slope, `TransformBack` undoes `Transform`
in exact arithmetic: for the linear transform at every value, and for the
logarithmic transform with a non-zero factor and a base `b > 0`, `b ≠ 1` at
every value `v > 0`. -/
theorem trafo_roundtrip_exact {K : Type} [Field K] (lin : LinTrafo K) (log : LogTrafo ℝ)
    (sentinel : ℝ) (hlin : lin.mSlope ≠ 0) (hlog : log.mSlope ≠ 0) (hb : 0 < log.mBase)
    (hb1 : log.mBase ≠ 1) (hf : log.mFactor ≠ 0) :
    (∀ v : K, lin.TransformBack (lin.Transform v) = v) ∧
    (∀ v : ℝ, 0 < v →
      log.TransformBack (SafeExp fun x y : ℝ => x ^ y)
        (log.Transform (SafeLog Real.logb sentinel) v) = v) := by
  refine ⟨fun v => ?_, fun v hv =>
    logTrafo_roundtrip_of_inverse _ _ log hlog v
      (safeExp_safeLog_real sentinel log.mBase log.mFactor v hb hb1 hf hv)⟩
  unfold LinTrafo.TransformBack LinTrafo.Transform
  field_simp

/-- C1, amended, with offset 3 and slope 2: the linear transform at 7 over
the rationals, and the logarithmic transform with base 10 and factor 1 at
100. -/
theorem trafo_roundtrip_exact_witness :
    LinTrafo.TransformBack (K := ℚ) ⟨3, 2⟩ (LinTrafo.Transform ⟨3, 2⟩ 7) = 7 ∧
    LogTrafo.TransformBack (SafeExp fun x y : ℝ => x ^ y) ⟨3, 2, 10, 1⟩
      (LogTrafo.Transform (SafeLog Real.logb 0) ⟨3, 2, 10, 1⟩ (100 : ℝ)) = 100 := by
  have h := trafo_roundtrip_exact (K := ℚ) ⟨3, 2⟩ ⟨3, 2, 10, 1⟩ 0 (by norm_num) (by norm_num)
    (by norm_num) (by norm_num) (by norm_num)
  exact ⟨h.1 7, h.2 100 (by norm_num)⟩

/-! ### Range computation of the series store -/

theorem afterCalls_append (calls : List AxisCall) (k : AxisCall) :
    AxisSetup.afterCalls (calls ++ [k]) = (AxisSetup.afterCalls calls).call k := by
  simp [AxisSetup.afterCalls, List.foldl_append]

theorem axisSetup_fields_last (calls : List AxisCall) :
    (AxisSetup.afterCalls calls).mMin = lastSetMin calls ∧
    (AxisSetup.afterCalls calls).mMax = lastSetMax calls ∧
    (AxisSetup.afterCalls calls).mAutoScaleMin = lastSetAutoScale calls ∧
    (AxisSetup.afterCalls calls).mAutoScaleMax = lastSetAutoScale calls := by
  induction calls using List.reverseRecOn with
  | nil => exact ⟨rfl, rfl, rfl, rfl⟩
  | append_singleton calls k ih =>
    obtain ⟨h1, h2, h3, h4⟩ := ih
    rw [afterCalls_append]
    cases k with
    | SetMin v =>
      simp [AxisSetup.call, AxisSetup.SetMin, lastSetMin, lastSetMax, lastSetAutoScale,
        List.findSome?_cons] at h1 h2 h3 h4 ⊢
      exact ⟨h2, h3, h4⟩
    | SetMax v =>
      simp [AxisSetup.call, AxisSetup.SetMax, lastSetMin, lastSetMax, lastSetAutoScale,
        List.findSome?_cons] at h1 h2 h3 h4 ⊢
      exact ⟨h1, h3, h4⟩
    | SetAutoScale b =>
      simp [AxisSetup.call, AxisSetup.SetAutoScale, lastSetMin, lastSetMax, lastSetAutoScale,
        List.findSome?_cons] at h1 h2 h3 h4 ⊢
      exact ⟨h1, h2⟩

/-- C11, as stated, fails: a default-constructed `AxisSetup` after
`SetAutoScale (false)` has both bounds fixed and `mMin = mMax = 0`, so
`mMin < mMax` does not hold. -/
theorem axisSetup_fixed_bounds_unordered :
    (AxisSetup.afterCalls [.SetAutoScale false]).mAutoScaleMin = false ∧
    (AxisSetup.afterCalls [.SetAutoScale false]).mAutoScaleMax = false ∧
    ¬ ((AxisSetup.afterCalls [.SetAutoScale false]).mMin <
        (AxisSetup.afterCalls [.SetAutoScale false]).mMax) := by
  refine ⟨rfl, rfl, ?_⟩
  have h0 : (AxisSetup.afterCalls [.SetAutoScale false]).mMin = 0 := rfl
  have h1 : (AxisSetup.afterCalls [.SetAutoScale false]).mMax = 0 := rfl
  rw [h0, h1]
  exact lt_irrefl 0

/-- C11, amended: in every `AxisSetup` reached from a default-constructed one
by `SetMin`, `SetMax` and `SetAutoScale` calls, `mMin` and `mMax` are the
values last passed to `SetMin` and `SetMax` (0 where never set) and both
autoscale flags are the value last passed to `SetAutoScale` (true where never
set); so when both bounds are fixed, `mMin < mMax` holds exactly when the
values last set are in that order. -/
theorem axisSetup_bounds_as_last_set (calls : List AxisCall) :
    (AxisSetup.afterCalls calls).mMin = lastSetMin calls ∧
    (AxisSetup.afterCalls calls).mMax = lastSetMax calls ∧
    (AxisSetup.afterCalls calls).mAutoScaleMin = lastSetAutoScale calls ∧
    (AxisSetup.afterCalls calls).mAutoScaleMax = lastSetAutoScale calls ∧
    ((AxisSetup.afterCalls calls).mAutoScaleMin = false →
      (AxisSetup.afterCalls calls).mAutoScaleMax = false →
      ((AxisSetup.afterCalls calls).mMin < (AxisSetup.afterCalls calls).mMax ↔
        lastSetMin calls < lastSetMax calls)) := by
  obtain ⟨h1, h2, h3, h4⟩ := axisSetup_fields_last calls
  refine ⟨h1, h2, h3, h4, fun _ _ => ?_⟩
  rw [h1, h2]

/-- C11, amended, on the calls `SetMin (1)`, `SetMax (5)`,
`SetAutoScale (false)`: both bounds are fixed and `mMin < mMax`. -/
theorem axisSetup_bounds_as_last_set_witness :
    (AxisSetup.afterCalls [.SetMin 1, .SetMax 5, .SetAutoScale false]).mAutoScaleMin = false ∧
    (AxisSetup.afterCalls [.SetMin 1, .SetMax 5, .SetAutoScale false]).mAutoScaleMax = false ∧
    (AxisSetup.afterCalls [.SetMin 1, .SetMax 5, .SetAutoScale false]).mMin <
      (AxisSetup.afterCalls [.SetMin 1, .SetMax 5, .SetAutoScale false]).mMax := by
  refine ⟨rfl, rfl, ?_⟩
  refine ((axisSetup_bounds_as_last_set
    [.SetMin 1, .SetMax 5, .SetAutoScale false]).2.2.2.2 rfl rfl).mpr ?_
  have h0 : lastSetMin [.SetMin 1, .SetMax 5, .SetAutoScale false] = 1 := rfl
  have h1 : lastSetMax [.SetMin 1, .SetMax 5, .SetAutoScale false] = 5 := rfl
  rw [h0, h1]
  norm_num

/-- C12: the linear and the categorical tick generator inherit
`TickIterator::AdjustRange`: on every pair of bounds, `min ≥ max` included,
`AdjustRange (min, max)` returns true and leaves both bounds unchanged. -/
theorem lin_named_adjustRange_identity (l : LinTickIterator) (n : NamedTickIterator)
    (ioMin ioMax : ℚ) :
    l.AdjustRange ioMin ioMax = (true, ioMin, ioMax) ∧
    n.AdjustRange ioMin ioMax = (true, ioMin, ioMax) :=
  ⟨rfl, rfl⟩

/-! ### The type `float` and the computed series -/

theorem roundHalfEven_intCast (k : ℤ) : roundHalfEven (k : ℚ) = k := by
  unfold roundHalfEven
  rw [Int.floor_intCast, sub_self, if_pos (by norm_num)]

theorem quantum_le_of_mantissa (m e : ℤ) (hm0 : m ≠ 0) (hm : |m| < 2 ^ 24) (he : -149 ≤ e) :
    F32.quantum ((m : ℚ) * 2 ^ e) ≤ e := by
  have h2e : (0 : ℚ) < 2 ^ e := zpow_pos (by norm_num) e
  have hmq : |(m : ℚ)| < 2 ^ 24 := by
    rw [← Int.cast_abs]
    exact_mod_cast hm
  have habs : |(m : ℚ) * 2 ^ e| = |(m : ℚ)| * 2 ^ e := by
    rw [abs_mul, abs_of_pos h2e]
  have hpos : 0 < |(m : ℚ) * 2 ^ e| := by
    rw [habs]
    exact mul_pos (abs_pos.mpr (by exact_mod_cast hm0)) h2e
  have hlt : |(m : ℚ) * 2 ^ e| < ((2 : ℕ) : ℚ) ^ (24 + e) := by
    rw [habs, Nat.cast_ofNat, zpow_add₀ (by norm_num : (2 : ℚ) ≠ 0)]
    have : (2 : ℚ) ^ (24 : ℤ) = 2 ^ 24 := by norm_num
    rw [this]
    exact mul_lt_mul_of_pos_right hmq h2e
  have hlog : Int.log 2 |(m : ℚ) * 2 ^ e| < 24 + e :=
    (Int.lt_zpow_iff_log_lt (by norm_num) hpos).mp hlt
  unfold F32.quantum
  omega

theorem isF32_of_mantissa (m e : ℤ) (hm : |m| < 2 ^ 24) (he : -149 ≤ e) (he2 : e ≤ 104) :
    IsF32 ((m : ℚ) * 2 ^ e) := by
  have h2 : (2 : ℚ) ≠ 0 := by norm_num
  have h2e : (0 : ℚ) < 2 ^ e := zpow_pos (by norm_num) e
  obtain ⟨k, hk⟩ : ∃ k : ℤ, (m : ℚ) * 2 ^ e / 2 ^ F32.quantum ((m : ℚ) * 2 ^ e) = (k : ℚ) := by
    by_cases hm0 : m = 0
    · exact ⟨0, by simp [hm0]⟩
    · have hq := quantum_le_of_mantissa m e hm0 hm he
      refine ⟨m * 2 ^ (e - F32.quantum ((m : ℚ) * 2 ^ e)).toNat, ?_⟩
      push_cast
      rw [mul_div_assoc, ← zpow_sub₀ h2, ← zpow_natCast, Int.toNat_of_nonneg (by omega)]
  have hy : (k : ℚ) * 2 ^ F32.quantum ((m : ℚ) * 2 ^ e) = (m : ℚ) * 2 ^ e := by
    rw [← hk, div_mul_cancel₀ _ (zpow_ne_zero _ h2)]
  have hlt : |(m : ℚ) * 2 ^ e| < 2 ^ 128 := by
    rw [abs_mul, abs_of_pos h2e]
    have hmq : |(m : ℚ)| < 2 ^ 24 := by
      rw [← Int.cast_abs]
      exact_mod_cast hm
    have hle : (2 : ℚ) ^ e ≤ 2 ^ (104 : ℤ) := zpow_le_zpow_right₀ (by norm_num) he2
    calc |(m : ℚ)| * 2 ^ e ≤ |(m : ℚ)| * 2 ^ (104 : ℤ) :=
          mul_le_mul_of_nonneg_left hle (abs_nonneg _)
      _ < 2 ^ 24 * 2 ^ (104 : ℤ) := mul_lt_mul_of_pos_right hmq (zpow_pos (by norm_num) _)
      _ = 2 ^ 128 := by norm_num
  obtain ⟨hlo, hhi⟩ := abs_lt.mp hlt
  unfold IsF32 F32.round
  rw [hk, roundHalfEven_intCast, hy, if_neg (not_le.mpr hhi), if_neg (not_le.mpr hlo)]

theorem isF32_intCast_small (m : ℤ) (hm : |m| < 2 ^ 24) : IsF32 (m : ℚ) := by
  have h := isF32_of_mantissa m 0 hm (by norm_num) (by norm_num)
  simpa using h

theorem getValue_of_exact (a b : ℚ) (n i : ℤ) (hi : IsF32 (i : ℚ)) (hp : IsF32 ((i : ℚ) * b))
    (hs : IsF32 (a + (i : ℚ) * b)) :
    (CalculatedData.mk (.fin a) (.fin b) n).GetValue i = .fin (a + (i : ℚ) * b) := by
  unfold IsF32 at hi hp hs
  simp only [CalculatedData.GetValue, F32.ofInt, hi, F32.mul, hp, F32.add, hs]

theorem round_two_pow_24_add_one : F32.round (2 ^ 24 + 1) = .fin (2 ^ 24) := by
  have hpos : (0 : ℚ) < |2 ^ 24 + 1| := by norm_num
  have h1 : (24 : ℤ) ≤ Int.log 2 |(2 : ℚ) ^ 24 + 1| :=
    (Int.zpow_le_iff_le_log (by norm_num) hpos).mp (by norm_num)
  have h2 : Int.log 2 |(2 : ℚ) ^ 24 + 1| < 25 :=
    (Int.lt_zpow_iff_log_lt (by norm_num) hpos).mp (by norm_num)
  have hq : F32.quantum (2 ^ 24 + 1) = 1 := by
    unfold F32.quantum
    omega
  have hf : ⌊((2 : ℚ) ^ 24 + 1) / 2 ^ (1 : ℤ)⌋ = 8388608 := by
    rw [Int.floor_eq_iff]
    norm_num
  have hr : roundHalfEven (((2 : ℚ) ^ 24 + 1) / 2 ^ (1 : ℤ)) = 8388608 := by
    unfold roundHalfEven
    rw [hf]
    norm_num
  unfold F32.round
  rw [hq, hr]
  norm_num

/-- C8, as stated, fails: in `CalculatedData (2^24, 1, 3)` both `2^24` and
`1` are `float` values and index 1 is within the size, yet `GetValue (1)` is
`2^24` and not `2^24 + 1 * 1`, and `GetValue (0)` is `2^24` too, so these
consecutive values differ by 0 and not by delta. -/
theorem calculatedData_rounds_at_two_pow_24 :
    IsF32 (2 ^ 24) ∧ IsF32 1 ∧
    (0 : ℤ) ≤ 1 ∧ (1 : ℤ) < (CalculatedData.mk (.fin (2 ^ 24)) (.fin 1) 3).GetSize ∧
    (CalculatedData.mk (.fin (2 ^ 24)) (.fin 1) 3).GetValue 0 = .fin (2 ^ 24) ∧
    (CalculatedData.mk (.fin (2 ^ 24)) (.fin 1) 3).GetValue 1 = .fin (2 ^ 24) ∧
    (F32.fin (2 ^ 24) ≠ F32.fin (2 ^ 24 + ((1 : ℤ) : ℚ) * 1)) := by
  have h24 : IsF32 (2 ^ 24) := by
    have h := isF32_of_mantissa 1 24 (by decide) (by norm_num) (by norm_num)
    have e : ((1 : ℤ) : ℚ) * 2 ^ (24 : ℤ) = 2 ^ 24 := by norm_num
    rwa [e] at h
  have h1 : IsF32 1 := by simpa using isF32_intCast_small 1 (by decide)
  have h0 : IsF32 0 := by simpa using isF32_intCast_small 0 (by decide)
  refine ⟨h24, h1, by decide, by decide, ?_, ?_, ?_⟩
  · have h := getValue_of_exact (2 ^ 24) 1 3 0 (by simpa using h0) (by simpa using h0)
      (by simpa using h24)
    simpa using h
  · unfold IsF32 at h1
    have hi : F32.round (((1 : ℤ) : ℚ)) = .fin 1 := by simpa using h1
    simp only [CalculatedData.GetValue, F32.ofInt, hi, F32.mul, mul_one, h1, F32.add]
    exact round_two_pow_24_add_one
  · intro h
    have := F32.fin.inj h
    norm_num at this

/-- C8, amended: `GetSize ()` returns `n`; for finite `min` and `delta` and
every index `i` with `0 ≤ i < n`, `GetValue (i)` is `min + i * delta` in
`float` arithmetic, the converted index, the product and the sum each rounded
to the nearest `float`; it is exactly `min + i * delta` whenever `i`,
`i * delta` and `min + i * delta` are `float` values, so `GetValue (0) = min`
for a `float` value `min`, and consecutive values differ by `delta` where
both are exact. -/
theorem calculatedData_float_rule (a b : ℚ) (n : ℤ) :
    (∀ inMin inDelta : F32, (CalculatedData.mk inMin inDelta n).GetSize = n) ∧
    (∀ i : ℤ, 0 ≤ i → i < n → ∀ c p : ℚ, F32.round (i : ℚ) = .fin c →
      F32.round (c * b) = .fin p →
      (CalculatedData.mk (.fin a) (.fin b) n).GetValue i = F32.round (a + p)) ∧
    (∀ i : ℤ, 0 ≤ i → i < n → IsF32 (i : ℚ) → IsF32 ((i : ℚ) * b) →
      IsF32 (a + (i : ℚ) * b) →
      (CalculatedData.mk (.fin a) (.fin b) n).GetValue i = .fin (a + (i : ℚ) * b)) ∧
    (IsF32 a → (CalculatedData.mk (.fin a) (.fin b) n).GetValue 0 = .fin a) ∧
    (∀ i : ℤ, 0 ≤ i → i + 1 < n →
      IsF32 (i : ℚ) → IsF32 ((i : ℚ) * b) → IsF32 (a + (i : ℚ) * b) →
      IsF32 ((i + 1 : ℤ) : ℚ) → IsF32 (((i + 1 : ℤ) : ℚ) * b) →
      IsF32 (a + ((i + 1 : ℤ) : ℚ) * b) →
      ∃ x y : ℚ, (CalculatedData.mk (.fin a) (.fin b) n).GetValue i = .fin x ∧
        (CalculatedData.mk (.fin a) (.fin b) n).GetValue (i + 1) = .fin y ∧ y - x = b) := by
  have h0 : IsF32 0 := by simpa using isF32_intCast_small 0 (by decide)
  refine ⟨fun _ _ => rfl, ?_, fun i _ _ hi hp hs => getValue_of_exact a b n i hi hp hs, ?_, ?_⟩
  · intro i _ _ c p hc hp
    simp only [CalculatedData.GetValue, F32.ofInt, hc, F32.mul, hp, F32.add]
  · intro ha
    have h := getValue_of_exact a b n 0 (by simpa using h0) (by simpa using h0)
      (by simpa using ha)
    simpa using h
  · intro i _ _ hi hp hs hi1 hp1 hs1
    refine ⟨_, _, getValue_of_exact a b n i hi hp hs,
      getValue_of_exact a b n (i + 1) hi1 hp1 hs1, ?_⟩
    push_cast
    ring

/-- C8, amended, on `CalculatedData (2, 1/2, 4)`: size 4, value
`2 + 3 * (1/2)` at index 3, value 2 at index 0. -/
theorem calculatedData_float_rule_witness :
    (CalculatedData.mk (.fin 2) (.fin (1 / 2)) 4).GetSize = 4 ∧
    (CalculatedData.mk (.fin 2) (.fin (1 / 2)) 4).GetValue 3 =
      .fin (2 + ((3 : ℤ) : ℚ) * (1 / 2)) ∧
    (CalculatedData.mk (.fin 2) (.fin (1 / 2)) 4).GetValue 0 = .fin 2 := by
  have h := calculatedData_float_rule 2 (1 / 2) 4
  have h3 : IsF32 ((3 : ℤ) : ℚ) := isF32_intCast_small 3 (by decide)
  have h32 : IsF32 (((3 : ℤ) : ℚ) * (1 / 2)) := by
    have e : ((3 : ℤ) : ℚ) * (1 / 2) = ((3 : ℤ) : ℚ) * 2 ^ (-1 : ℤ) := by norm_num
    rw [e]
    exact isF32_of_mantissa 3 (-1) (by decide) (by norm_num) (by norm_num)
  have h72 : IsF32 (2 + ((3 : ℤ) : ℚ) * (1 / 2)) := by
    have e : 2 + ((3 : ℤ) : ℚ) * (1 / 2) = ((7 : ℤ) : ℚ) * 2 ^ (-1 : ℤ) := by norm_num
    rw [e]
    exact isF32_of_mantissa 7 (-1) (by decide) (by norm_num) (by norm_num)
  have h2 : IsF32 2 := by simpa using isF32_intCast_small 2 (by decide)
  exact ⟨h.1 _ _, h.2.2.1 3 (by decide) (by decide) h3 h32 h72, h.2.2.2.1 h2⟩

end SVGChart
